import Mathlib

/-!
Shallow embedding of the backup subsystem of `backup.py` (class
`BackupManager`), the core of the mcserver repository.

Pure data is modelled directly.  The effectful parts are modelled by an
explicit environment (`Env`) and an event trace:

* `Event.save h`      — a call to `_save_history` while the in-memory
                        history is `h` (persistence to durable storage);
* `Event.notify t s`  — a call to `send_webhook_notification` with title
                        `t` and severity `s` (the attempt, regardless of
                        whether a webhook URL is configured);
* `Event.runCmd c`    — the start of the external `rclone` subprocess
                        with argument list `c`.

`datetime.now()` is modelled by the fixed `Env.start` value (a job reads
the clock once for its timestamp); `time.time()` differences and
`isoformat()` strings are opaque environment data (`Env.duration`,
`Env.start_iso`, `Env.end_iso`).  `os.path.exists` is `Env.pathExists`,
and the result of the `i`-th subprocess started by a job is
`Env.outcomes i` (either an exit, or a raised exception, e.g. the rclone
binary missing).  Python floats that only ever hold decimal literals
scaled by powers of 1024 are modelled exactly (integer arithmetic for the
truncating `int(...)` conversion, `ℚ` for `_format_bytes`).
-/

set_option maxHeartbeats 1000000

namespace MCBackup

/-! ## Configuration and clock (backup.py lines 11-22, 82-86) -/

structure Config where
  mc_server_path : String
  rclone_remote : String
  bucket_path : String
  webhook_url : String
deriving DecidableEq

/-- A wall-clock reading, enough to evaluate `strftime('%Y%m%d_%H%M%S')`. -/
structure DTime where
  year : Nat
  month : Nat
  day : Nat
  hour : Nat
  minute : Nat
  second : Nat
deriving DecidableEq

def pad2 (n : Nat) : String :=
  if n < 10 then "0" ++ toString n else toString n

def pad4 (n : Nat) : String :=
  if n < 10 then "000" ++ toString n
  else if n < 100 then "00" ++ toString n
  else if n < 1000 then "0" ++ toString n
  else toString n

/-- `datetime.now().strftime('%Y%m%d_%H%M%S')` (backup.py line 83). -/
def fmtTimestamp (t : DTime) : String :=
  pad4 t.year ++ pad2 t.month ++ pad2 t.day ++ "_" ++
    pad2 t.hour ++ pad2 t.minute ++ pad2 t.second

/-! ## The job record (backup.py lines 135-148) -/

structure Record where
  id : String
  timestamp : String
  start_time : String
  status : String
  remote_path : String
  local_path : String
  selected_paths : List String
  output : String
  error : Option String
  duration : Nat
  files_transferred : Nat
  bytes_transferred : Nat
  end_time : Option String
deriving DecidableEq

/-! ## External world -/

/-- Result of one `asyncio.create_subprocess_exec` + `communicate`:
either an exit with captured streams, or a raised exception. -/
inductive ProcOutcome where
  | ok (returncode : Int) (stdout stderr : String)
  | exn (msg : String)
deriving DecidableEq

structure Env where
  start : DTime
  start_iso : String
  end_iso : String
  duration : Nat
  pathExists : String → Bool
  outcomes : Nat → ProcOutcome

inductive Event where
  | save (h : List Record)
  | notify (title severity : String)
  | runCmd (cmd : List String)
deriving DecidableEq

def isRun : Event → Bool
  | Event.runCmd _ => true
  | _ => false

def isSave : Event → Bool
  | Event.save _ => true
  | _ => false

/-! ## Transfer stats parser (backup.py lines 194-219)

Models `'Transferred:' in line`, `re.search(r'Transferred:\s*(\d+)', line)`
and `re.search(r'(\d+\.?\d*)\s*(B|KB|MB|GB|TB)', line, re.IGNORECASE)`.
The regexes are compiled to direct leftmost-match scanners: at each start
position the greedy match of this particular pattern never needs
backtracking into an earlier sub-pattern, and on failure the start
position advances by one character, as in `re.search`. -/

def beginsWith : List Char → List Char → Bool
  | [], _ => true
  | _ :: _, [] => false
  | p :: ps, c :: cs => p == c && beginsWith ps cs

def containsSeq (pat : List Char) : List Char → Bool
  | [] => pat.isEmpty
  | c :: cs => beginsWith pat (c :: cs) || containsSeq pat cs

def markerChars : List Char := "Transferred:".data

/-- Python `'Transferred:' in line`. -/
def containsMarker (s : String) : Bool :=
  containsSeq markerChars s.data

def digitsToNat (l : List Char) : Nat :=
  l.foldl (fun a c => a * 10 + (c.toNat - 48)) 0

/-- `re.search(r'Transferred:\s*(\d+)', line)`: the first occurrence of the
literal marker that is followed (after whitespace) by at least one digit;
the captured group is the maximal digit run. -/
def findTransferredCount : List Char → Option Nat
  | [] => none
  | c :: cs =>
    if beginsWith markerChars (c :: cs) then
      let rest := ((c :: cs).drop markerChars.length).dropWhile Char.isWhitespace
      let ds := rest.takeWhile Char.isDigit
      if ds.isEmpty then findTransferredCount cs else some (digitsToNat ds)
    else findTransferredCount cs

/-- The unit alternative `(B|KB|MB|GB|TB)` with `re.IGNORECASE`, tried in
this order (so a lone `B` matches even at the start of `Bytes`), returning
the base-1024 multiplier from the `multipliers` dict (lines 212-215). -/
def unitMultAt : List Char → Option Nat
  | [] => none
  | c :: rest =>
    if c.toUpper == 'B' then some 1
    else
      match rest with
      | [] => none
      | c2 :: _ =>
        if c2.toUpper == 'B' then
          if c.toUpper == 'K' then some 1024
          else if c.toUpper == 'M' then some (1024 * 1024)
          else if c.toUpper == 'G' then some (1024 * 1024 * 1024)
          else if c.toUpper == 'T' then some (1024 * 1024 * 1024 * 1024)
          else none
        else none

/-- A match of `(\d+\.?\d*)\s*(B|KB|MB|GB|TB)` anchored at the head of `l`,
already converted: `int(float(num) * multiplier)` computed exactly as
`⌊num · multiplier⌋` on the captured decimal numeral (exact for the decimal
values produced by rclone; Python's binary float rounding is not modelled). -/
def matchNumUnitAt (l : List Char) : Option Nat :=
  let ds := l.takeWhile Char.isDigit
  if ds.isEmpty then none
  else
    let r1 := l.dropWhile Char.isDigit
    let p :=
      match r1 with
      | '.' :: r2 => (r2.takeWhile Char.isDigit, r2.dropWhile Char.isDigit)
      | _ => (([] : List Char), r1)
    let r4 := p.2.dropWhile Char.isWhitespace
    match unitMultAt r4 with
    | some m => some ((digitsToNat ds * 10 ^ p.1.length + digitsToNat p.1) * m / 10 ^ p.1.length)
    | none => none

/-- Leftmost match of the size regex over the whole line. -/
def findSizeBytes : List Char → Option Nat
  | [] => none
  | c :: cs =>
    match matchNumUnitAt (c :: cs) with
    | some n => some n
    | none => findSizeBytes cs

/-- Stats extracted from one marker line: each component independently
falls back to 0 when its regex does not match (lines 200-218). -/
def lineStats (s : String) : Nat × Nat :=
  ((findTransferredCount s.data).getD 0, (findSizeBytes s.data).getD 0)

/-- Scan the lines of one sub-transfer's stdout: only the first line
containing the marker is parsed, then the loop `break`s (line 219). -/
def parseStatsLines : List String → Nat × Nat
  | [] => (0, 0)
  | l :: ls => if containsMarker l then lineStats l else parseStatsLines ls

/-- `output.split('\n')` on the underlying character list: Python's
splitting on the exact one-character separator (so `''` gives `['']`, a
trailing newline gives a trailing empty line). -/
def splitNl : List Char → List (List Char)
  | [] => [[]]
  | c :: cs =>
    if c = '\n' then [] :: splitNl cs
    else
      match splitNl cs with
      | [] => [[c]]
      | l :: ls => (c :: l) :: ls

def strSplitNl (s : String) : List String :=
  (splitNl s.data).map fun l => String.mk l

/-- Per-sub-transfer stats parse of raw stdout (`output.split('\n')`). -/
def parseStats (s : String) : Nat × Nat :=
  parseStatsLines (strSplitNl s)

/-! ## Command construction (backup.py lines 86-133) -/

/-- `os.path.join` for one possibly-relative component (POSIX semantics),
expressed on the character lists so it evaluates by kernel reduction. -/
def joinPath (a b : String) : String :=
  if b.data.head? = some '/' then b
  else if a = "" then b
  else if a.data.getLast? = some '/' then a ++ b
  else a ++ "/" ++ b

def backupId (env : Env) : String :=
  "backup_" ++ fmtTimestamp env.start

/-- `f"{self.rclone_remote}:{self.bucket_path}/{timestamp}"` (line 86). -/
def remotePathOf (cfg : Config) (env : Env) : String :=
  cfg.rclone_remote ++ ":" ++ cfg.bucket_path ++ "/" ++ fmtTimestamp env.start

/-- One selective-mode `rclone copy` invocation (lines 98-111). -/
def copyCmd (cfg : Config) (env : Env) (path : String) : List String :=
  ["rclone", "copy", joinPath cfg.mc_server_path path,
   cfg.rclone_remote ++ ":" ++ cfg.bucket_path ++ "/" ++ fmtTimestamp env.start ++ "/" ++ path,
   "--transfers", "4", "--checkers", "8", "--skip-links", "--copy-links",
   "--no-update-modtime", "--progress", "--stats", "1s", "-v"]

/-- The single full-tree `rclone sync` invocation (lines 115-133). -/
def syncCmd (cfg : Config) (env : Env) : List String :=
  ["rclone", "sync", cfg.mc_server_path, remotePathOf cfg env,
   "--transfers", "4", "--checkers", "8", "--skip-links", "--copy-links",
   "--no-update-modtime", "--exclude", "*.tmp", "--exclude", "*.log",
   "--exclude", "*.lock", "--exclude", "logs/**", "--exclude", "crash-reports/**",
   "--progress", "--stats", "1s", "-v"]

/-- `if selected_paths and len(selected_paths) > 0:` — selective mode builds
one copy command per selected path that exists on disk (`continue`
otherwise, line 95-96); a `None` or empty list falls to full-tree mode. -/
def buildTasks (cfg : Config) (env : Env) (sel : Option (List String)) : List (List String) :=
  match sel with
  | some (p :: ps) =>
    ((p :: ps).filter fun path => env.pathExists (joinPath cfg.mc_server_path path)).map
      (copyCmd cfg env)
  | _ => [syncCmd cfg env]

/-! ## History store (backup.py lines 150-151, 299-304, 320-325) -/

/-- The update loop `for i, record in enumerate(self.history): if
record['id'] == backup_id: self.history[i] = backup_record; break`. -/
def updateById : List Record → String → Record → List Record
  | [], _, _ => []
  | r :: rs, i, nr => if r.id == i then nr :: rs else r :: updateById rs i nr

/-! ## The job runner (backup.py lines 76-334) -/

/-- The initial `backup_record` dict (lines 135-148); `selected_paths or
[]`, no `end_time` key yet, `error` is `None`. -/
def initRecord (cfg : Config) (env : Env) (sel : Option (List String)) : Record :=
  { id := backupId env
    timestamp := fmtTimestamp env.start
    start_time := env.start_iso
    status := "running"
    remote_path := remotePathOf cfg env
    local_path := cfg.mc_server_path
    selected_paths := sel.getD []
    output := ""
    error := none
    duration := 0
    files_transferred := 0
    bytes_transferred := 0
    end_time := none }

/-- Accumulators of the `for rclone_cmd in backup_tasks` loop
(lines 168-172). -/
structure LoopAcc where
  all_output : String
  all_error_output : String
  total_files : Nat
  total_bytes : Nat
  all_success : Bool
deriving DecidableEq

inductive LoopResult where
  | done (acc : LoopAcc) (events : List Event)
  | raised (msg : String) (events : List Event)

def LoopResult.events : LoopResult → List Event
  | LoopResult.done _ evs => evs
  | LoopResult.raised _ evs => evs

/-- Prepend the event that started an iteration to the events of the rest
of the loop. -/
def LoopResult.push (c : Event) : LoopResult → LoopResult
  | LoopResult.done a evs => LoopResult.done a (c :: evs)
  | LoopResult.raised m evs => LoopResult.raised m (c :: evs)

/-- One iteration's effect on the loop accumulators (lines 184-219):
concatenate stdout/stderr, clear `all_success` on a nonzero exit, add the
parsed stats of this command's stdout. -/
def stepAcc (acc : LoopAcc) (rc : Int) (out err : String) : LoopAcc :=
  { all_output := acc.all_output ++ out ++ "\n"
    all_error_output :=
      if err = "" then acc.all_error_output else acc.all_error_output ++ err ++ "\n"
    total_files := acc.total_files + (parseStats out).1
    total_bytes := acc.total_bytes + (parseStats out).2
    all_success := acc.all_success && (rc == 0) }

/-- The sub-transfer loop (lines 174-219): run each command in build
order; a raised exception aborts the loop and is caught by the
surrounding `try` (line 308). -/
def runTasks (env : Env) : List (List String) → Nat → LoopAcc → LoopResult
  | [], _, acc => LoopResult.done acc []
  | cmd :: rest, idx, acc =>
    match env.outcomes idx with
    | ProcOutcome.exn msg => LoopResult.raised msg [Event.runCmd cmd]
    | ProcOutcome.ok rc out err =>
      (runTasks env rest (idx + 1) (stepAcc acc rc out err)).push (Event.runCmd cmd)

structure Result where
  history : List Record
  record : Record
  trace : List Event
deriving DecidableEq

/-- The two leading trace events of every job: the insert-at-head + save
of the `running` record (lines 150-151) and the start notification
(line 160), both before any sub-transfer runs. -/
def startEvents (cfg : Config) (env : Env) (sel : Option (List String))
    (h0 : List Record) : List Event :=
  [Event.save (initRecord cfg env sel :: h0), Event.notify "备份任务开始" "info"]

/-- Terminal record when every exit status was zero (lines 267-274): the
aggregated stats, the duration and the end time are set. -/
def successRecord (cfg : Config) (env : Env) (sel : Option (List String))
    (acc : LoopAcc) : Record :=
  { initRecord cfg env sel with
    status := "success"
    output := acc.all_output
    duration := env.duration
    files_transferred := acc.total_files
    bytes_transferred := acc.total_bytes
    end_time := some env.end_iso }

/-- Terminal record on a nonzero exit status (lines 283-289): note that
`files_transferred` / `bytes_transferred` are not part of this update, so
they keep their initial zero values. -/
def failureRecord (cfg : Config) (env : Env) (sel : Option (List String))
    (acc : LoopAcc) : Record :=
  { initRecord cfg env sel with
    status := "error"
    output := acc.all_output
    error := some acc.all_error_output
    duration := env.duration
    end_time := some env.end_iso }

/-- Terminal record of the `except` path (lines 313-318): `str(e)` in
`error`; output and stats keep their initial values. -/
def exceptionRecord (cfg : Config) (env : Env) (sel : Option (List String))
    (msg : String) : Record :=
  { initRecord cfg env sel with
    status := "error"
    error := some msg
    duration := env.duration
    end_time := some env.end_iso }

/-- Success path, lines 266-281 then 299-306: the success notification is
sent (line 277) before the update + save of the history (lines 299-304). -/
def successResult (cfg : Config) (env : Env) (sel : Option (List String))
    (h0 : List Record) (acc : LoopAcc) (evs : List Event) : Result :=
  { history := updateById (initRecord cfg env sel :: h0) (backupId env)
      (successRecord cfg env sel acc)
    record := successRecord cfg env sel acc
    trace := startEvents cfg env sel h0 ++ evs ++
      [Event.notify "备份任务完成" "success",
       Event.save (updateById (initRecord cfg env sel :: h0) (backupId env)
         (successRecord cfg env sel acc))] }

/-- Tool-reported failure path, lines 283-297 then 299-306: the failure
notification (line 293) precedes the update + save (lines 299-304). -/
def failureResult (cfg : Config) (env : Env) (sel : Option (List String))
    (h0 : List Record) (acc : LoopAcc) (evs : List Event) : Result :=
  { history := updateById (initRecord cfg env sel :: h0) (backupId env)
      (failureRecord cfg env sel acc)
    record := failureRecord cfg env sel acc
    trace := startEvents cfg env sel h0 ++ evs ++
      [Event.notify "备份任务失败" "error",
       Event.save (updateById (initRecord cfg env sel :: h0) (backupId env)
         (failureRecord cfg env sel acc))] }

/-- Exception path, lines 308-334: here the update + save (lines 320-325)
precede the error notification (line 328), and the record is returned. -/
def exceptionResult (cfg : Config) (env : Env) (sel : Option (List String))
    (h0 : List Record) (msg : String) (evs : List Event) : Result :=
  { history := updateById (initRecord cfg env sel :: h0) (backupId env)
      (exceptionRecord cfg env sel msg)
    record := exceptionRecord cfg env sel msg
    trace := startEvents cfg env sel h0 ++ evs ++
      [Event.save (updateById (initRecord cfg env sel :: h0) (backupId env)
         (exceptionRecord cfg env sel msg)),
       Event.notify "备份任务异常" "error"] }

/-- Everything after the loop: dispatch on whether an exception was
raised and on `all_success` (line 266). -/
def finishResult (cfg : Config) (env : Env) (sel : Option (List String)) (h0 : List Record) :
    LoopResult → Result
  | LoopResult.done acc evs =>
    if acc.all_success then successResult cfg env sel h0 acc evs
    else failureResult cfg env sel h0 acc evs
  | LoopResult.raised msg evs => exceptionResult cfg env sel h0 msg evs

/-- The accumulator initialisation of lines 168-172. -/
def initAcc : LoopAcc :=
  { all_output := ""
    all_error_output := ""
    total_files := 0
    total_bytes := 0
    all_success := true }

/-- `execute_backup` (backup.py lines 76-334), as a function of the
configuration, the environment, `selected_paths`, and the in-memory
history at entry.  It returns the final in-memory history, the returned
`backup_record`, and the trace of effects in program order. -/
def execute_backup (cfg : Config) (env : Env) (sel : Option (List String))
    (h0 : List Record) : Result :=
  finishResult cfg env sel h0 (runTasks env (buildTasks cfg env sel) 0 initAcc)

/-! ## Byte formatting (backup.py lines 336-344)

`_format_bytes` is modelled with exact rationals (the repeated `/= 1024.0`
is exact in binary floating point for inputs below `2 ^ 53`); the final
`"%.2f"` string rendering is abstracted away, the function returns the
scaled value and the chosen unit. -/

def fbUnits : List String := ["B", "KB", "MB", "GB", "TB"]

def fbLoop : List String → ℚ → ℚ × String
  | [], v => (v, "PB")
  | u :: us, v => if v < 1024 then (v, u) else fbLoop us (v / 1024)

def format_bytes (b : Nat) : ℚ × String :=
  if b = 0 then (0, "B") else fbLoop fbUnits (b : ℚ)

/-- Multiplier of each unit name (base 1024). -/
def unitMult (u : String) : Nat :=
  if u = "KB" then 1024
  else if u = "MB" then 1024 ^ 2
  else if u = "GB" then 1024 ^ 3
  else if u = "TB" then 1024 ^ 4
  else if u = "PB" then 1024 ^ 5
  else 1

/-! ## The spec's id format (for claim C8)

Modelled from the spec: §3 gives the id format as
`backup_<YYYYMMDDHHMMSS>` — fourteen digits, no separator between the
date and time parts.  This definition follows the spec's words, to be
compared with `backupId`, which follows the code. -/
def specIdForm (t : DTime) : String :=
  "backup_" ++ pad4 t.year ++ pad2 t.month ++ pad2 t.day ++
    pad2 t.hour ++ pad2 t.minute ++ pad2 t.second

/-! ## Aggregation helpers used to state the claims -/

/-- Sum of parsed file counts of the stdouts of sub-transfers
`idx, idx+1, …, idx+n-1`. -/
def sumFilesFrom (out : Nat → String) (idx n : Nat) : Nat :=
  ((List.range n).map fun i => (parseStats (out (idx + i))).1).sum

def sumBytesFrom (out : Nat → String) (idx n : Nat) : Nat :=
  ((List.range n).map fun i => (parseStats (out (idx + i))).2).sum

/-! ## Helper lemmas about the loop -/

@[simp]
lemma LoopResult.push_done (c : Event) (a : LoopAcc) (evs : List Event) :
    (LoopResult.done a evs).push c = LoopResult.done a (c :: evs) := rfl

@[simp]
lemma LoopResult.push_raised (c : Event) (m : String) (evs : List Event) :
    (LoopResult.raised m evs).push c = LoopResult.raised m (c :: evs) := rfl

@[simp]
lemma LoopResult.events_push (c : Event) (lr : LoopResult) :
    (lr.push c).events = c :: lr.events := by
  cases lr <;> rfl

lemma runTasks_nil (env : Env) (idx : Nat) (acc : LoopAcc) :
    runTasks env [] idx acc = LoopResult.done acc [] := rfl

lemma runTasks_cons_exn (env : Env) (cmd : List String) (rest : List (List String))
    (idx : Nat) (acc : LoopAcc) (msg : String)
    (h : env.outcomes idx = ProcOutcome.exn msg) :
    runTasks env (cmd :: rest) idx acc = LoopResult.raised msg [Event.runCmd cmd] := by
  simp only [runTasks, h]

lemma runTasks_cons_ok (env : Env) (cmd : List String) (rest : List (List String))
    (idx : Nat) (acc : LoopAcc) (rc : Int) (out err : String)
    (h : env.outcomes idx = ProcOutcome.ok rc out err) :
    runTasks env (cmd :: rest) idx acc =
      (runTasks env rest (idx + 1) (stepAcc acc rc out err)).push (Event.runCmd cmd) := by
  simp only [runTasks, h]

/-- Every event the loop emits is a subprocess start. -/
lemma runTasks_events_runs (env : Env) (tasks : List (List String)) :
    ∀ (idx : Nat) (acc : LoopAcc) (e : Event),
      e ∈ (runTasks env tasks idx acc).events → isRun e = true := by
  induction tasks with
  | nil =>
    intro idx acc e he
    simp [runTasks_nil, LoopResult.events] at he
  | cons cmd rest ih =>
    intro idx acc e he
    cases ho : env.outcomes idx with
    | exn msg =>
      rw [runTasks_cons_exn env cmd rest idx acc msg ho] at he
      simp only [LoopResult.events, List.mem_singleton] at he
      subst he; rfl
    | ok rc out err =>
      rw [runTasks_cons_ok env cmd rest idx acc rc out err ho,
        LoopResult.events_push] at he
      rcases List.mem_cons.mp he with rfl | hmem
      · rfl
      · exact ih (idx + 1) _ e hmem

lemma sumFilesFrom_succ (out : Nat → String) (idx n : Nat) :
    sumFilesFrom out idx (n + 1) = (parseStats (out idx)).1 + sumFilesFrom out (idx + 1) n := by
  unfold sumFilesFrom
  rw [List.range_succ_eq_map, List.map_cons, List.map_map, List.sum_cons]
  congr 1
  congr 1
  apply List.map_congr_left
  intro a _
  simp only [Function.comp_apply]
  have h : idx + Nat.succ a = idx + 1 + a := by omega
  rw [h]

lemma sumBytesFrom_succ (out : Nat → String) (idx n : Nat) :
    sumBytesFrom out idx (n + 1) = (parseStats (out idx)).2 + sumBytesFrom out (idx + 1) n := by
  unfold sumBytesFrom
  rw [List.range_succ_eq_map, List.map_cons, List.map_map, List.sum_cons]
  congr 1
  congr 1
  apply List.map_congr_left
  intro a _
  simp only [Function.comp_apply]
  have h : idx + Nat.succ a = idx + 1 + a := by omega
  rw [h]

/-- When no exception is raised during the first `tasks.length`
subprocesses, the loop runs every command in order and returns
accumulators characterised by the per-command exit codes and stdouts. -/
lemma runTasks_ok (env : Env) (rc : Nat → Int) (out err : Nat → String)
    (tasks : List (List String)) :
    ∀ (idx : Nat) (acc : LoopAcc),
      (∀ i, i < tasks.length →
        env.outcomes (idx + i) = ProcOutcome.ok (rc (idx + i)) (out (idx + i)) (err (idx + i))) →
      ∃ acc', runTasks env tasks idx acc = LoopResult.done acc' (tasks.map Event.runCmd) ∧
        (acc'.all_success = true ↔
          (acc.all_success = true ∧ ∀ i, i < tasks.length → rc (idx + i) = 0)) ∧
        acc'.total_files = acc.total_files + sumFilesFrom out idx tasks.length ∧
        acc'.total_bytes = acc.total_bytes + sumBytesFrom out idx tasks.length := by
  induction tasks with
  | nil =>
    intro idx acc _h
    exact ⟨acc, rfl, by simp, by simp [sumFilesFrom], by simp [sumBytesFrom]⟩
  | cons cmd rest ih =>
    intro idx acc h
    have h0 : env.outcomes idx = ProcOutcome.ok (rc idx) (out idx) (err idx) := by
      have := h 0 (by simp)
      simpa using this
    obtain ⟨acc', hrun, hsuc, hf, hb⟩ :=
      ih (idx + 1) (stepAcc acc (rc idx) (out idx) (err idx)) (fun i hi => by
        have hlt : i + 1 < (cmd :: rest).length := by simp; omega
        have := h (i + 1) hlt
        rwa [show idx + (i + 1) = idx + 1 + i by omega] at this)
    refine ⟨acc', ?_, ?_, ?_, ?_⟩
    · rw [runTasks_cons_ok env cmd rest idx acc (rc idx) (out idx) (err idx) h0, hrun]
      simp
    · rw [hsuc]
      simp only [stepAcc, Bool.and_eq_true, beq_iff_eq, List.length_cons]
      constructor
      · rintro ⟨⟨ha, hz⟩, hrest⟩
        refine ⟨ha, ?_⟩
        intro i hi
        cases i with
        | zero => simpa using hz
        | succ j =>
          have := hrest j (by omega)
          rwa [show idx + 1 + j = idx + (j + 1) by omega] at this
      · rintro ⟨ha, hall⟩
        refine ⟨⟨ha, by simpa using hall 0 (by omega)⟩, ?_⟩
        intro j hj
        have := hall (j + 1) (by omega)
        rwa [show idx + (j + 1) = idx + 1 + j by omega] at this
    · rw [hf]
      simp only [stepAcc, List.length_cons, sumFilesFrom_succ]
      omega
    · rw [hb]
      simp only [stepAcc, List.length_cons, sumBytesFrom_succ]
      omega

/-- When the `k`-th subprocess raises (and the earlier ones exit
normally), the loop aborts with that exception message. -/
lemma runTasks_raised (env : Env) (msg : String) (tasks : List (List String)) :
    ∀ (idx k : Nat) (acc : LoopAcc),
      k < tasks.length →
      (∀ i, i < k → ∃ rc o e, env.outcomes (idx + i) = ProcOutcome.ok rc o e) →
      env.outcomes (idx + k) = ProcOutcome.exn msg →
      ∃ evs, runTasks env tasks idx acc = LoopResult.raised msg evs := by
  induction tasks with
  | nil =>
    intro idx k acc hk
    simp at hk
  | cons cmd rest ih =>
    intro idx k acc hk hok hexn
    cases k with
    | zero =>
      rw [Nat.add_zero] at hexn
      exact ⟨[Event.runCmd cmd], runTasks_cons_exn env cmd rest idx acc msg hexn⟩
    | succ j =>
      obtain ⟨rc0, o0, e0, h0⟩ := hok 0 (by omega)
      rw [Nat.add_zero] at h0
      obtain ⟨evs, hrun⟩ := ih (idx + 1) j (stepAcc acc rc0 o0 e0)
        (by simp at hk; omega)
        (fun i hi => by
          obtain ⟨a, b, c, hh⟩ := hok (i + 1) (by omega)
          exact ⟨a, b, c, by rwa [show idx + (i + 1) = idx + 1 + i by omega] at hh⟩)
        (by rwa [show idx + (j + 1) = idx + 1 + j by omega] at hexn)
      rw [runTasks_cons_ok env cmd rest idx acc rc0 o0 e0 h0, hrun]
      exact ⟨Event.runCmd cmd :: evs, rfl⟩

/-! ## Helper lemmas about the finish phase -/

lemma updateById_cons_self (r : Record) (h0 : List Record) (nr : Record) :
    updateById (r :: h0) r.id nr = nr :: h0 := by
  simp [updateById]

@[simp]
lemma initRecord_id (cfg : Config) (env : Env) (sel : Option (List String)) :
    (initRecord cfg env sel).id = backupId env := rfl

/-- The final history is the terminal record at the head followed by the
unchanged older records. -/
lemma updateById_init (cfg : Config) (env : Env) (sel : Option (List String))
    (h0 : List Record) (nr : Record) :
    updateById (initRecord cfg env sel :: h0) (backupId env) nr = nr :: h0 := by
  have := updateById_cons_self (initRecord cfg env sel) h0 nr
  rwa [initRecord_id] at this

/-- Case analysis on the three terminal paths of `execute_backup`. -/
lemma execute_backup_shape (cfg : Config) (env : Env) (sel : Option (List String))
    (h0 : List Record) :
    (∃ acc evs, (∀ e ∈ evs, isRun e = true) ∧ acc.all_success = true ∧
      execute_backup cfg env sel h0 = successResult cfg env sel h0 acc evs) ∨
    (∃ acc evs, (∀ e ∈ evs, isRun e = true) ∧ acc.all_success = false ∧
      execute_backup cfg env sel h0 = failureResult cfg env sel h0 acc evs) ∨
    (∃ msg evs, (∀ e ∈ evs, isRun e = true) ∧
      execute_backup cfg env sel h0 = exceptionResult cfg env sel h0 msg evs) := by
  unfold execute_backup
  cases hr : runTasks env (buildTasks cfg env sel) 0 initAcc with
  | done acc evs =>
    have hev : ∀ e ∈ evs, isRun e = true := fun e he =>
      runTasks_events_runs env (buildTasks cfg env sel) 0 initAcc e
        (by rw [hr]; exact he)
    cases hs : acc.all_success with
    | true =>
      left
      exact ⟨acc, evs, hev, hs, by simp [finishResult, hs]⟩
    | false =>
      right; left
      exact ⟨acc, evs, hev, hs, by simp [finishResult, hs]⟩
  | raised msg evs =>
    have hev : ∀ e ∈ evs, isRun e = true := fun e he =>
      runTasks_events_runs env (buildTasks cfg env sel) 0 initAcc e
        (by rw [hr]; exact he)
    right; right
    exact ⟨msg, evs, hev, by simp [finishResult]⟩

lemma isSave_of_isRun (e : Event) : isRun e = true → isSave e = false := by
  cases e <;> simp [isRun, isSave]

/-! ## Concrete instances used by witnesses and counterexamples -/

def cexCfg : Config :=
  { mc_server_path := "/mc", rclone_remote := "r2", bucket_path := "mc", webhook_url := "" }

def cexDT : DTime := ⟨2025, 10, 12, 15, 30, 45⟩

/-- An environment where every subprocess exits 0 with empty output. -/
def okEnv0 : Env :=
  { start := cexDT, start_iso := "S", end_iso := "E", duration := 7,
    pathExists := fun _ => true, outcomes := fun _ => ProcOutcome.ok 0 "" "" }

/-! ## Claims -/

/-- C2: for every job request, exactly one record with status `running`
is inserted at the head of the history and persisted before any
sub-transfer process is started (the save of `rec0 :: h0` is the very
first trace event), and exactly one in-place update-by-id of that record
to a terminal status is persisted afterwards, in every outcome path:
the only other save event in the trace carries the updated history, and
the final in-memory history is exactly that update. -/
theorem claim_c2_append_then_update (cfg : Config) (env : Env) (sel : Option (List String))
    (h0 : List Record) :
    ∃ (rec0 recF : Record) (mid tail : List Event),
      rec0 = initRecord cfg env sel ∧
      rec0.status = "running" ∧
      (recF.status = "success" ∨ recF.status = "error") ∧
      (execute_backup cfg env sel h0).trace =
        Event.save (rec0 :: h0) ::
          (mid ++ Event.save (updateById (rec0 :: h0) (backupId env) recF) :: tail) ∧
      (∀ e ∈ mid, isSave e = false) ∧
      (∀ e ∈ tail, isSave e = false) ∧
      (execute_backup cfg env sel h0).history = updateById (rec0 :: h0) (backupId env) recF ∧
      (execute_backup cfg env sel h0).record = recF := by
  rcases execute_backup_shape cfg env sel h0 with
    ⟨acc, evs, hev, _hs, heq⟩ | ⟨acc, evs, hev, _hs, heq⟩ | ⟨msg, evs, hev, heq⟩
  · refine ⟨initRecord cfg env sel, successRecord cfg env sel acc,
      Event.notify "备份任务开始" "info" :: (evs ++ [Event.notify "备份任务完成" "success"]), [],
      rfl, rfl, Or.inl rfl, ?_, ?_, ?_, ?_, ?_⟩
    · rw [heq]; simp [successResult, startEvents]
    · intro e he
      rcases List.mem_cons.mp he with rfl | he2
      · rfl
      · rcases List.mem_append.mp he2 with h3 | h3
        · exact isSave_of_isRun e (hev e h3)
        · simp only [List.mem_singleton] at h3; subst h3; rfl
    · intro e he; simp at he
    · rw [heq]; rfl
    · rw [heq]; rfl
  · refine ⟨initRecord cfg env sel, failureRecord cfg env sel acc,
      Event.notify "备份任务开始" "info" :: (evs ++ [Event.notify "备份任务失败" "error"]), [],
      rfl, rfl, Or.inr rfl, ?_, ?_, ?_, ?_, ?_⟩
    · rw [heq]; simp [failureResult, startEvents]
    · intro e he
      rcases List.mem_cons.mp he with rfl | he2
      · rfl
      · rcases List.mem_append.mp he2 with h3 | h3
        · exact isSave_of_isRun e (hev e h3)
        · simp only [List.mem_singleton] at h3; subst h3; rfl
    · intro e he; simp at he
    · rw [heq]; rfl
    · rw [heq]; rfl
  · refine ⟨initRecord cfg env sel, exceptionRecord cfg env sel msg,
      Event.notify "备份任务开始" "info" :: evs, [Event.notify "备份任务异常" "error"],
      rfl, rfl, Or.inr rfl, ?_, ?_, ?_, ?_, ?_⟩
    · rw [heq]; simp [exceptionResult, startEvents]
    · intro e he
      rcases List.mem_cons.mp he with rfl | he2
      · rfl
      · exact isSave_of_isRun e (hev e he2)
    · intro e he
      simp only [List.mem_singleton] at he; subst he; rfl
    · rw [heq]; rfl
    · rw [heq]; rfl

/-- C5 (amended): the job-start notification is made after the initial
record is persisted (the trace starts with the save, then the start
notification); but whether the *terminal* state change is persisted
before its notification depends on the path: in the exception path the
save precedes the notification, while in the success and tool-failure
paths the terminal notification is sent first and the durable save of the
terminal history follows it. -/
theorem claim_c5_amended (cfg : Config) (env : Env) (sel : Option (List String))
    (h0 : List Record) :
    ((execute_backup cfg env sel h0).trace.take 2 =
      [Event.save (initRecord cfg env sel :: h0), Event.notify "备份任务开始" "info"]) ∧
    ((∃ pre t s, (execute_backup cfg env sel h0).trace =
        pre ++ [Event.notify t s, Event.save (execute_backup cfg env sel h0).history]) ∨
     (∃ pre, (execute_backup cfg env sel h0).trace =
        pre ++ [Event.save (execute_backup cfg env sel h0).history,
                Event.notify "备份任务异常" "error"])) := by
  rcases execute_backup_shape cfg env sel h0 with
    ⟨acc, evs, _hev, _hs, heq⟩ | ⟨acc, evs, _hev, _hs, heq⟩ | ⟨msg, evs, _hev, heq⟩
  · constructor
    · rw [heq]; rfl
    · left
      refine ⟨startEvents cfg env sel h0 ++ evs, "备份任务完成", "success", ?_⟩
      rw [heq]; simp [successResult, startEvents]
  · constructor
    · rw [heq]; rfl
    · left
      refine ⟨startEvents cfg env sel h0 ++ evs, "备份任务失败", "error", ?_⟩
      rw [heq]; simp [failureResult, startEvents]
  · constructor
    · rw [heq]; rfl
    · right
      refine ⟨startEvents cfg env sel h0 ++ evs, ?_⟩
      rw [heq]; simp [exceptionResult, startEvents]

/-- C5 (counterexample): in a one-sub-transfer success run, the terminal
success notification is trace event 3 and the save of the terminal
history is trace event 4; no save of the terminal history occurs before
the notification.  So the durable persistence of the terminal state
change happens *after* the notification call, contradicting the claim. -/
theorem claim_c5_counterexample :
    ((execute_backup cexCfg okEnv0 none []).trace.get? 3 =
      some (Event.notify "备份任务完成" "success")) ∧
    ((execute_backup cexCfg okEnv0 none []).trace.get? 4 =
      some (Event.save (execute_backup cexCfg okEnv0 none []).history)) ∧
    (∀ i, i < 3 → (execute_backup cexCfg okEnv0 none []).trace.get? i ≠
      some (Event.save (execute_backup cexCfg okEnv0 none []).history)) := by
  decide

/-- C8 (amended): the record id is `backup_` followed by the start
timestamp in the `%Y%m%d_%H%M%S` format (an underscore between the date
and the time parts), assigned at creation and unchanged in the terminal
record; the `timestamp` field is exactly that same second-granularity
string. -/
theorem claim_c8_amended (cfg : Config) (env : Env) (sel : Option (List String))
    (h0 : List Record) :
    (execute_backup cfg env sel h0).record.id = "backup_" ++ fmtTimestamp env.start ∧
    (execute_backup cfg env sel h0).record.timestamp = fmtTimestamp env.start ∧
    (initRecord cfg env sel).id = (execute_backup cfg env sel h0).record.id ∧
    (execute_backup cfg env sel h0).history.head? = some (execute_backup cfg env sel h0).record := by
  rcases execute_backup_shape cfg env sel h0 with
    ⟨acc, evs, _hev, _hs, heq⟩ | ⟨acc, evs, _hev, _hs, heq⟩ | ⟨msg, evs, _hev, heq⟩ <;>
    rw [heq] <;>
    exact ⟨rfl, rfl, rfl, by
      simp only [successResult, failureResult, exceptionResult, updateById_init]
      rfl⟩

/-- C8 (counterexample): at start time 2025-10-12 15:30:45 the code
produces id `backup_20251012_153045`, while the claimed form
`backup_<YYYYMMDDHHMMSS>` is `backup_20251012153045`; they differ. -/
theorem claim_c8_counterexample :
    (execute_backup cexCfg okEnv0 none []).record.id = "backup_20251012_153045" ∧
    specIdForm cexDT = "backup_20251012153045" ∧
    (execute_backup cexCfg okEnv0 none []).record.id ≠ specIdForm cexDT := by
  decide

lemma filter_isRun_map_runCmd (l : List (List String)) :
    (l.map Event.runCmd).filter isRun = l.map Event.runCmd :=
  List.filter_eq_self.mpr fun e he => by
    obtain ⟨c, _, rfl⟩ := List.mem_map.mp he; rfl

/-- C1: when the built invocation list is non-empty and no exception is
raised, every invocation is started, in build order — the run events of
the trace are exactly the built commands — even when earlier invocations
exit nonzero; the terminal status is `success` iff every sub-transfer
exit status is zero, and any nonzero exit status forces `error`. -/
theorem claim_c1_sequencing_and_status (cfg : Config) (env : Env) (sel : Option (List String))
    (h0 : List Record) (rc : Nat → Int) (out err : Nat → String)
    (_hne : buildTasks cfg env sel ≠ [])
    (hok : ∀ i, i < (buildTasks cfg env sel).length →
      env.outcomes i = ProcOutcome.ok (rc i) (out i) (err i)) :
    (execute_backup cfg env sel h0).trace.filter isRun =
      (buildTasks cfg env sel).map Event.runCmd ∧
    ((execute_backup cfg env sel h0).record.status = "success" ↔
      ∀ i, i < (buildTasks cfg env sel).length → rc i = 0) ∧
    ((∃ i, i < (buildTasks cfg env sel).length ∧ rc i ≠ 0) →
      (execute_backup cfg env sel h0).record.status = "error") := by
  obtain ⟨acc', hrun, hsuc, _hf, _hb⟩ :=
    runTasks_ok env rc out err (buildTasks cfg env sel) 0 initAcc
      (fun i hi => by simpa using hok i hi)
  have hsuc' : acc'.all_success = true ↔
      ∀ i, i < (buildTasks cfg env sel).length → rc i = 0 := by
    rw [hsuc]
    simp [initAcc]
  have hexe : execute_backup cfg env sel h0 =
      finishResult cfg env sel h0
        (LoopResult.done acc' ((buildTasks cfg env sel).map Event.runCmd)) := by
    unfold execute_backup
    rw [hrun]
  cases hs : acc'.all_success with
  | true =>
    have hfin : execute_backup cfg env sel h0 =
        successResult cfg env sel h0 acc' ((buildTasks cfg env sel).map Event.runCmd) := by
      rw [hexe]; simp [finishResult, hs]
    refine ⟨?_, ?_, ?_⟩
    · rw [hfin]
      simp [successResult, startEvents, List.filter_append, isRun,
        filter_isRun_map_runCmd]
    · rw [hfin]
      exact ⟨fun _ => hsuc'.mp hs, fun _ => rfl⟩
    · rintro ⟨i, hi, hne0⟩
      exact absurd (hsuc'.mp hs i hi) hne0
  | false =>
    have hfin : execute_backup cfg env sel h0 =
        failureResult cfg env sel h0 acc' ((buildTasks cfg env sel).map Event.runCmd) := by
      rw [hexe]; simp [finishResult, hs]
    refine ⟨?_, ?_, ?_⟩
    · rw [hfin]
      simp [failureResult, startEvents, List.filter_append, isRun,
        filter_isRun_map_runCmd]
    · rw [hfin]
      refine iff_of_false (by simp [failureResult, failureRecord]) fun hall => ?_
      rw [hsuc'.mpr hall] at hs
      cases hs
    · intro _
      rw [hfin]
      rfl

def c1env : Env :=
  { start := cexDT, start_iso := "S", end_iso := "E", duration := 7,
    pathExists := fun _ => true,
    outcomes := fun i => if i = 0 then ProcOutcome.ok 0 "" "" else ProcOutcome.ok 1 "" "x" }

def c1rc : Nat → Int := fun i => if i = 0 then 0 else 1

def c1out : Nat → String := fun _ => ""

def c1err : Nat → String := fun i => if i = 0 then "" else "x"

/-- C1 (witness): a two-path selective job whose second sub-transfer
exits 1 — both invocations still run in order and the job ends `error`. -/
theorem claim_c1_witness :
    (buildTasks cexCfg c1env (some ["a", "b"]) ≠ []) ∧
    (∀ i, i < (buildTasks cexCfg c1env (some ["a", "b"])).length →
      c1env.outcomes i = ProcOutcome.ok (c1rc i) (c1out i) (c1err i)) ∧
    ((execute_backup cexCfg c1env (some ["a", "b"]) []).trace.filter isRun =
      (buildTasks cexCfg c1env (some ["a", "b"])).map Event.runCmd ∧
    ((execute_backup cexCfg c1env (some ["a", "b"]) []).record.status = "success" ↔
      ∀ i, i < (buildTasks cexCfg c1env (some ["a", "b"])).length → c1rc i = 0) ∧
    ((∃ i, i < (buildTasks cexCfg c1env (some ["a", "b"])).length ∧ c1rc i ≠ 0) →
      (execute_backup cexCfg c1env (some ["a", "b"]) []).record.status = "error")) :=
  ⟨by decide, by decide,
    claim_c1_sequencing_and_status cexCfg c1env (some ["a", "b"]) [] c1rc c1out c1err
      (by decide) (by decide)⟩

/-- C3: when the `k`-th subprocess raises an exception (e.g. the rclone
binary is missing), `execute_backup` catches it: the returned record has
status `error` with the exception message in `error`, the record is
persisted at the head of the history, the save precedes an attempted
error notification, and the record is returned (the function is total on
this path — nothing propagates). -/
theorem claim_c3_exception_handling (cfg : Config) (env : Env) (sel : Option (List String))
    (h0 : List Record) (msg : String) (k : Nat)
    (hk : k < (buildTasks cfg env sel).length)
    (hok : ∀ i, i < k → ∃ rc o e, env.outcomes i = ProcOutcome.ok rc o e)
    (hexn : env.outcomes k = ProcOutcome.exn msg) :
    (execute_backup cfg env sel h0).record.status = "error" ∧
    (execute_backup cfg env sel h0).record.error = some msg ∧
    (execute_backup cfg env sel h0).history =
      (execute_backup cfg env sel h0).record :: h0 ∧
    (execute_backup cfg env sel h0).history.head? =
      some (execute_backup cfg env sel h0).record ∧
    (∃ pre, (execute_backup cfg env sel h0).trace =
      pre ++ [Event.save (execute_backup cfg env sel h0).history,
              Event.notify "备份任务异常" "error"]) := by
  obtain ⟨evs, hrun⟩ := runTasks_raised env msg (buildTasks cfg env sel) 0 k initAcc hk
    (fun i hi => by simpa using hok i hi) (by simpa using hexn)
  have hexe : execute_backup cfg env sel h0 = exceptionResult cfg env sel h0 msg evs := by
    unfold execute_backup
    rw [hrun]
    rfl
  rw [hexe]
  refine ⟨rfl, rfl, ?_, ?_, ⟨startEvents cfg env sel h0 ++ evs, ?_⟩⟩
  · simp [exceptionResult, updateById_init]
  · simp [exceptionResult, updateById_init]
  · simp [exceptionResult, startEvents]

def c3env : Env :=
  { start := cexDT, start_iso := "S", end_iso := "E", duration := 7,
    pathExists := fun _ => true,
    outcomes := fun _ => ProcOutcome.exn "No such file or directory: rclone" }

/-- C3 (witness): the very first subprocess raises — the full-tree job
still returns an `error` record carrying the message. -/
theorem claim_c3_witness :
    (0 < (buildTasks cexCfg c3env none).length) ∧
    (c3env.outcomes 0 = ProcOutcome.exn "No such file or directory: rclone") ∧
    ((execute_backup cexCfg c3env none []).record.status = "error" ∧
    (execute_backup cexCfg c3env none []).record.error =
      some "No such file or directory: rclone" ∧
    (execute_backup cexCfg c3env none []).history =
      (execute_backup cexCfg c3env none []).record :: [] ∧
    (execute_backup cexCfg c3env none []).history.head? =
      some (execute_backup cexCfg c3env none []).record ∧
    (∃ pre, (execute_backup cexCfg c3env none []).trace =
      pre ++ [Event.save (execute_backup cexCfg c3env none []).history,
              Event.notify "备份任务异常" "error"])) :=
  ⟨by decide, rfl,
    claim_c3_exception_handling cexCfg c3env none [] "No such file or directory: rclone" 0
      (by decide) (fun i hi => absurd hi (Nat.not_lt_zero i)) rfl⟩

/-- On a success, the record's stats are the sums of the per-sub-transfer
parses (shared by C4 and C6). -/
lemma execute_success_stats (cfg : Config) (env : Env) (sel : Option (List String))
    (h0 : List Record) (rc : Nat → Int) (out err : Nat → String)
    (hok : ∀ i, i < (buildTasks cfg env sel).length →
      env.outcomes i = ProcOutcome.ok (rc i) (out i) (err i))
    (hs : (execute_backup cfg env sel h0).record.status = "success") :
    (execute_backup cfg env sel h0).record.files_transferred =
      sumFilesFrom out 0 (buildTasks cfg env sel).length ∧
    (execute_backup cfg env sel h0).record.bytes_transferred =
      sumBytesFrom out 0 (buildTasks cfg env sel).length := by
  obtain ⟨acc', hrun, _hsuc, hf, hb⟩ :=
    runTasks_ok env rc out err (buildTasks cfg env sel) 0 initAcc
      (fun i hi => by simpa using hok i hi)
  have hexe : execute_backup cfg env sel h0 =
      finishResult cfg env sel h0
        (LoopResult.done acc' ((buildTasks cfg env sel).map Event.runCmd)) := by
    unfold execute_backup
    rw [hrun]
  cases hsb : acc'.all_success with
  | true =>
    have hfin : execute_backup cfg env sel h0 =
        successResult cfg env sel h0 acc' ((buildTasks cfg env sel).map Event.runCmd) := by
      rw [hexe]; simp [finishResult, hsb]
    rw [hfin]
    constructor
    · show acc'.total_files = _
      rw [hf]; simp [initAcc]
    · show acc'.total_bytes = _
      rw [hb]; simp [initAcc]
  | false =>
    exfalso
    have hfin : execute_backup cfg env sel h0 =
        failureResult cfg env sel h0 acc' ((buildTasks cfg env sel).map Event.runCmd) := by
      rw [hexe]; simp [finishResult, hsb]
    rw [hfin] at hs
    simp [failureResult, failureRecord] at hs

/-- On an `error` terminal status, the stats fields keep their initial
zero values — neither error-path update writes them (shared by C6). -/
lemma execute_error_zero_stats (cfg : Config) (env : Env) (sel : Option (List String))
    (h0 : List Record)
    (hs : (execute_backup cfg env sel h0).record.status = "error") :
    (execute_backup cfg env sel h0).record.files_transferred = 0 ∧
    (execute_backup cfg env sel h0).record.bytes_transferred = 0 := by
  rcases execute_backup_shape cfg env sel h0 with
    ⟨acc, evs, _hev, _hsb, heq⟩ | ⟨acc, evs, _hev, _hsb, heq⟩ | ⟨msg, evs, _hev, heq⟩
  · rw [heq] at hs
    simp [successResult, successRecord] at hs
  · rw [heq]
    exact ⟨rfl, rfl⟩
  · rw [heq]
    exact ⟨rfl, rfl⟩

/-- The stdout of the C4 scenario: the sync tool reports 42 files and
3.5 MB on the first line containing the marker. -/
def c4out : String :=
  "2024/01/02 12:00:00 INFO  : run\nTransferred:   42 / 46, 3.5 MB, 1.2 MB/s, ETA 0s\nChecks: 10"

def c4env : Env :=
  { start := cexDT, start_iso := "S", end_iso := "E", duration := 7,
    pathExists := fun _ => true,
    outcomes := fun _ => ProcOutcome.ok 0 c4out "" }

/-- C4: the stats parser uses only the first line containing
`Transferred:` (lines before it without the marker are skipped, lines
after it are ignored); with no marker line the result is `(0, 0)`; a
component whose regex fails yields 0 for that component only, never an
error; the runner sums the per-sub-transfer parses into the success
record; and the concrete full-tree scenario — exit 0 with output
containing `Transferred: 42 ... 3.5 MB ...` — produces
`status = success`, `filesTransferred = 42`,
`bytesTransferred = 3670016 = ⌊3.5 · 1024²⌋`. -/
theorem claim_c4_stats_parsing :
    (∀ (pre post : List String) (L : String),
      (∀ l ∈ pre, containsMarker l = false) → containsMarker L = true →
      parseStatsLines (pre ++ L :: post) = lineStats L) ∧
    (∀ ls : List String, (∀ l ∈ ls, containsMarker l = false) →
      parseStatsLines ls = (0, 0)) ∧
    (∀ L : String, findTransferredCount L.data = none → (lineStats L).1 = 0) ∧
    (∀ L : String, findSizeBytes L.data = none → (lineStats L).2 = 0) ∧
    (∀ (cfg : Config) (env : Env) (sel : Option (List String)) (h0 : List Record)
      (rc : Nat → Int) (out err : Nat → String),
      (∀ i, i < (buildTasks cfg env sel).length →
        env.outcomes i = ProcOutcome.ok (rc i) (out i) (err i)) →
      (execute_backup cfg env sel h0).record.status = "success" →
      (execute_backup cfg env sel h0).record.files_transferred =
        sumFilesFrom out 0 (buildTasks cfg env sel).length ∧
      (execute_backup cfg env sel h0).record.bytes_transferred =
        sumBytesFrom out 0 (buildTasks cfg env sel).length) ∧
    ((execute_backup cexCfg c4env none []).record.status = "success" ∧
     (execute_backup cexCfg c4env none []).record.files_transferred = 42 ∧
     (execute_backup cexCfg c4env none []).record.bytes_transferred = 3670016) := by
  refine ⟨?_, ?_, ?_, ?_, ?_, ?_⟩
  · intro pre post L hpre hm
    induction pre with
    | nil => simp [parseStatsLines, hm]
    | cons l ls ih =>
      have hl : containsMarker l = false := hpre l (by simp)
      simp only [List.cons_append, parseStatsLines, hl, Bool.false_eq_true, if_false]
      exact ih fun x hx => hpre x (by simp [hx])
  · intro ls hls
    induction ls with
    | nil => rfl
    | cons l ls ih =>
      have hl : containsMarker l = false := hls l (by simp)
      simp only [parseStatsLines, hl, Bool.false_eq_true, if_false]
      exact ih fun x hx => hls x (by simp [hx])
  · intro L h
    simp [lineStats, h]
  · intro L h
    simp [lineStats, h]
  · intro cfg env sel h0 rc out err hok hs
    exact execute_success_stats cfg env sel h0 rc out err hok hs
  · decide

/-- C4 (witness): instantiating the quantified parts on concrete lines. -/
theorem claim_c4_witness :
    ((∀ l ∈ ["no stats here"], containsMarker l = false) ∧
     containsMarker "Transferred:   42 / 46, 3.5 MB, 1.2 MB/s, ETA 0s" = true ∧
     parseStatsLines
       (["no stats here"] ++ "Transferred:   42 / 46, 3.5 MB, 1.2 MB/s, ETA 0s" :: ["Checks: 10"]) =
       lineStats "Transferred:   42 / 46, 3.5 MB, 1.2 MB/s, ETA 0s") ∧
    ((∀ l ∈ ["alpha", "beta"], containsMarker l = false) ∧
     parseStatsLines ["alpha", "beta"] = (0, 0)) ∧
    (findTransferredCount "alpha".data = none ∧ (lineStats "alpha").1 = 0) :=
  ⟨⟨by decide, by decide,
      claim_c4_stats_parsing.1 ["no stats here"] ["Checks: 10"]
        "Transferred:   42 / 46, 3.5 MB, 1.2 MB/s, ETA 0s" (by decide) (by decide)⟩,
   ⟨by decide, claim_c4_stats_parsing.2.1 ["alpha", "beta"] (by decide)⟩,
   ⟨by decide, claim_c4_stats_parsing.2.2.1 "alpha" (by decide)⟩⟩

/-- C6 (amended): every terminal update sets the terminal status, the
duration and the end time, and the updated record sits at the head of
the history; but the aggregated transfer statistics are written only on
the `success` path — an `error` record keeps its initial zero
`files_transferred` / `bytes_transferred` even when sub-transfers
reported transfers. -/
theorem claim_c6_amended (cfg : Config) (env : Env) (sel : Option (List String))
    (h0 : List Record) (rc : Nat → Int) (out err : Nat → String) :
    (execute_backup cfg env sel h0).record.duration = env.duration ∧
    (execute_backup cfg env sel h0).record.end_time = some env.end_iso ∧
    ((execute_backup cfg env sel h0).record.status = "success" ∨
     (execute_backup cfg env sel h0).record.status = "error") ∧
    (execute_backup cfg env sel h0).history.head? =
      some (execute_backup cfg env sel h0).record ∧
    ((execute_backup cfg env sel h0).record.status = "error" →
      (execute_backup cfg env sel h0).record.files_transferred = 0 ∧
      (execute_backup cfg env sel h0).record.bytes_transferred = 0) ∧
    ((∀ i, i < (buildTasks cfg env sel).length →
        env.outcomes i = ProcOutcome.ok (rc i) (out i) (err i)) →
      (execute_backup cfg env sel h0).record.status = "success" →
      (execute_backup cfg env sel h0).record.files_transferred =
        sumFilesFrom out 0 (buildTasks cfg env sel).length ∧
      (execute_backup cfg env sel h0).record.bytes_transferred =
        sumBytesFrom out 0 (buildTasks cfg env sel).length) := by
  refine ⟨?_, ?_, ?_, ?_,
    fun hs => execute_error_zero_stats cfg env sel h0 hs,
    fun hok hs => execute_success_stats cfg env sel h0 rc out err hok hs⟩ <;>
  rcases execute_backup_shape cfg env sel h0 with
    ⟨acc, evs, _hev, _hsb, heq⟩ | ⟨acc, evs, _hev, _hsb, heq⟩ | ⟨msg, evs, _hev, heq⟩ <;>
  rw [heq]
  · rfl
  · rfl
  · rfl
  · rfl
  · rfl
  · rfl
  · exact Or.inl rfl
  · exact Or.inr rfl
  · exact Or.inr rfl
  · simp only [successResult, updateById_init]; rfl
  · simp only [failureResult, updateById_init]; rfl
  · simp only [exceptionResult, updateById_init]; rfl

def c6env : Env :=
  { start := cexDT, start_iso := "S", end_iso := "E", duration := 7,
    pathExists := fun _ => true,
    outcomes := fun _ => ProcOutcome.ok 1 "Transferred: 5 / 5, 2 KB, 0 B/s" "boom" }

/-- C6 (counterexample): a full-tree job whose single sub-transfer exits
1 while reporting 5 files / 2 KB transferred: the aggregated statistics
are `(5, 2048)`, but the terminal `error` update leaves the record's
stats at 0 — so the terminal update does *not* set the aggregated
transfer statistics, contrary to the claim. -/
theorem claim_c6_counterexample :
    parseStats "Transferred: 5 / 5, 2 KB, 0 B/s" = (5, 2048) ∧
    sumFilesFrom (fun _ => "Transferred: 5 / 5, 2 KB, 0 B/s") 0
      (buildTasks cexCfg c6env none).length = 5 ∧
    (execute_backup cexCfg c6env none []).record.status = "error" ∧
    (execute_backup cexCfg c6env none []).record.files_transferred = 0 ∧
    (execute_backup cexCfg c6env none []).record.bytes_transferred = 0 ∧
    (execute_backup cexCfg c6env none []).record.files_transferred ≠ 5 := by
  decide

/-- C6 (witness): the amended theorem applied at the counterexample
environment, error path. -/
theorem claim_c6_witness :
    (execute_backup cexCfg c6env none []).record.status = "error" ∧
    ((execute_backup cexCfg c6env none []).record.files_transferred = 0 ∧
     (execute_backup cexCfg c6env none []).record.bytes_transferred = 0) :=
  ⟨by decide,
    (claim_c6_amended cexCfg c6env none [] (fun _ => 1)
      (fun _ => "Transferred: 5 / 5, 2 KB, 0 B/s") (fun _ => "boom")).2.2.2.2.1
      (by decide)⟩

/-- Two copy commands with the same configuration and clock are equal
only when the selected paths are equal (the destination argument embeds
the path). -/
lemma copyCmd_inj (cfg : Config) (env : Env) : Function.Injective (copyCmd cfg env) := by
  intro p q h
  simp only [copyCmd, List.cons.injEq, and_true] at h
  have h4 := h.2.2.2
  have hd := congrArg String.data h4
  simp only [String.data_append, List.append_assoc, List.append_cancel_left_eq] at hd
  exact String.ext hd

/-- Multiplicity of one selected path's copy command among the built
invocations: one occurrence per occurrence of the path in the selection
(when the path exists on disk). -/
lemma count_copyCmd (cfg : Config) (env : Env) (l : List String) (q : String)
    (hq : env.pathExists (joinPath cfg.mc_server_path q) = true) :
    ((l.filter fun x => env.pathExists (joinPath cfg.mc_server_path x)).map
      (copyCmd cfg env)).count (copyCmd cfg env q) = l.count q := by
  induction l with
  | nil => rfl
  | cons a l ih =>
    by_cases ha : env.pathExists (joinPath cfg.mc_server_path a) = true
    · rw [List.filter_cons_of_pos (by simpa using ha), List.map_cons,
        List.count_cons, List.count_cons, ih]
      congr 1
      by_cases haq : a = q
      · subst haq; simp
      · have hne : copyCmd cfg env a ≠ copyCmd cfg env q :=
          fun hc => haq (copyCmd_inj cfg env hc)
        simp [haq, hne]
    · have ha' : env.pathExists (joinPath cfg.mc_server_path a) = false := by
        cases hpe : env.pathExists (joinPath cfg.mc_server_path a)
        · rfl
        · exact absurd hpe ha
      rw [List.filter_cons_of_neg (by simp [ha']), List.count_cons, ih]
      have haq : a ≠ q := fun hh => by rw [hh, hq] at ha'; cases ha'
      simp [haq]

def c7env : Env :=
  { start := cexDT, start_iso := "S", end_iso := "E", duration := 7,
    pathExists := fun s => s == "/mc/world",
    outcomes := fun _ => ProcOutcome.ok 0 "" "" }

/-- C7: in selective mode the built invocations are exactly one `copy`
command per selected path that exists on disk, in order (with the right
multiplicity); a selected path that does not exist is silently skipped at
build time; every copy command is `rclone copy` targeting
`remotePath/<relativePath>`; and in the concrete scenario
`selectedPaths = ["world", "missing_dir"]` with only `world` on disk,
exactly one invocation is built and the job reaches `success`. -/
theorem claim_c7_selective_build (cfg : Config) (env : Env) (p : String) (ps : List String) :
    buildTasks cfg env (some (p :: ps)) =
      ((p :: ps).filter fun q => env.pathExists (joinPath cfg.mc_server_path q)).map
        (copyCmd cfg env) ∧
    (∀ q, env.pathExists (joinPath cfg.mc_server_path q) = true →
      (buildTasks cfg env (some (p :: ps))).count (copyCmd cfg env q) = (p :: ps).count q) ∧
    (∀ q ∈ p :: ps, env.pathExists (joinPath cfg.mc_server_path q) = false →
      copyCmd cfg env q ∉ buildTasks cfg env (some (p :: ps))) ∧
    (∀ q, (copyCmd cfg env q).take 2 = ["rclone", "copy"] ∧
      (copyCmd cfg env q)[3]? = some (remotePathOf cfg env ++ "/" ++ q)) ∧
    ((buildTasks cexCfg c7env (some ["world", "missing_dir"])).length = 1 ∧
     buildTasks cexCfg c7env (some ["world", "missing_dir"]) =
       [copyCmd cexCfg c7env "world"] ∧
     (execute_backup cexCfg c7env (some ["world", "missing_dir"]) []).record.status =
       "success") := by
  refine ⟨rfl, ?_, ?_, ?_, by decide⟩
  · intro q hq
    exact count_copyCmd cfg env (p :: ps) q hq
  · intro q _hqmem hq hmem
    obtain ⟨q', hq', heq⟩ := List.mem_map.mp hmem
    obtain rfl := copyCmd_inj cfg env heq
    have hmem' := List.of_mem_filter hq'
    rw [hq] at hmem'
    cases hmem'
  · intro q
    refine ⟨rfl, ?_⟩
    have hdest : cfg.rclone_remote ++ ":" ++ cfg.bucket_path ++ "/" ++
        fmtTimestamp env.start ++ "/" ++ q = remotePathOf cfg env ++ "/" ++ q := by
      apply String.ext
      simp [remotePathOf, String.data_append, List.append_assoc]
    simp [copyCmd, hdest]

/-- C7 (witness): the count and skip parts instantiated on the scenario
inputs. -/
theorem claim_c7_witness :
    (c7env.pathExists (joinPath cexCfg.mc_server_path "world") = true ∧
     (buildTasks cexCfg c7env (some ["world", "missing_dir"])).count
       (copyCmd cexCfg c7env "world") = (["world", "missing_dir"] : List String).count "world") ∧
    ("missing_dir" ∈ ("world" :: ["missing_dir"]) ∧
     c7env.pathExists (joinPath cexCfg.mc_server_path "missing_dir") = false ∧
     copyCmd cexCfg c7env "missing_dir" ∉ buildTasks cexCfg c7env (some ["world", "missing_dir"])) :=
  ⟨⟨by decide,
     (claim_c7_selective_build cexCfg c7env "world" ["missing_dir"]).2.1 "world" (by decide)⟩,
   ⟨by decide, by decide,
     (claim_c7_selective_build cexCfg c7env "world" ["missing_dir"]).2.2.1 "missing_dir"
       (by decide) (by decide)⟩⟩

/-- C10: if every path of a non-empty `selectedPaths` is missing on disk,
no invocation is built, no subprocess is started (no run event in the
trace), and the job still terminates `success` with zero stats. -/
theorem claim_c10_all_missing_success (cfg : Config) (env : Env) (h0 : List Record)
    (p : String) (ps : List String)
    (hmiss : ∀ q ∈ p :: ps, env.pathExists (joinPath cfg.mc_server_path q) = false) :
    buildTasks cfg env (some (p :: ps)) = [] ∧
    (∀ e ∈ (execute_backup cfg env (some (p :: ps)) h0).trace, isRun e = false) ∧
    (execute_backup cfg env (some (p :: ps)) h0).record.status = "success" ∧
    (execute_backup cfg env (some (p :: ps)) h0).record.files_transferred = 0 ∧
    (execute_backup cfg env (some (p :: ps)) h0).record.bytes_transferred = 0 := by
  have htasks : buildTasks cfg env (some (p :: ps)) = [] := by
    show ((p :: ps).filter fun q => env.pathExists (joinPath cfg.mc_server_path q)).map
      (copyCmd cfg env) = []
    rw [List.filter_eq_nil_iff.mpr fun a ha => by simp [hmiss a ha]]
    rfl
  have hexe : execute_backup cfg env (some (p :: ps)) h0 =
      successResult cfg env (some (p :: ps)) h0 initAcc [] := by
    unfold execute_backup
    rw [htasks]
    rfl
  refine ⟨htasks, ?_, ?_, ?_, ?_⟩
  · intro e he
    rw [hexe] at he
    simp only [successResult, startEvents, List.cons_append, List.nil_append,
      List.mem_cons, List.mem_singleton] at he
    rcases he with rfl | rfl | rfl | rfl | he
    · rfl
    · rfl
    · rfl
    · rfl
    · simp at he
  · rw [hexe]; rfl
  · rw [hexe]; rfl
  · rw [hexe]; rfl

def c10env : Env :=
  { start := cexDT, start_iso := "S", end_iso := "E", duration := 7,
    pathExists := fun _ => false,
    outcomes := fun _ => ProcOutcome.exn "never reached" }

/-- C10 (witness): both selected paths missing — the job still succeeds
with zero stats and no subprocess is even attempted. -/
theorem claim_c10_witness :
    (∀ q ∈ ("world" :: ["nether"]), c10env.pathExists (joinPath cexCfg.mc_server_path q) = false) ∧
    (buildTasks cexCfg c10env (some ("world" :: ["nether"])) = [] ∧
     (∀ e ∈ (execute_backup cexCfg c10env (some ("world" :: ["nether"])) []).trace,
       isRun e = false) ∧
     (execute_backup cexCfg c10env (some ("world" :: ["nether"])) []).record.status = "success" ∧
     (execute_backup cexCfg c10env (some ("world" :: ["nether"])) []).record.files_transferred = 0 ∧
     (execute_backup cexCfg c10env (some ("world" :: ["nether"])) []).record.bytes_transferred = 0) :=
  ⟨by decide, claim_c10_all_missing_success cexCfg c10env [] "world" ["nether"] (by decide)⟩

@[simp] lemma unitMult_B : unitMult "B" = 1 := rfl

@[simp] lemma unitMult_KB : unitMult "KB" = 1024 := rfl

@[simp] lemma unitMult_MB : unitMult "MB" = 1048576 := rfl

@[simp] lemma unitMult_GB : unitMult "GB" = 1073741824 := rfl

@[simp] lemma unitMult_TB : unitMult "TB" = 1099511627776 := rfl

@[simp] lemma unitMult_PB : unitMult "PB" = 1125899906842624 := rfl

/-- Full characterisation of `_format_bytes` on positive inputs: the
scaled value times the chosen unit's multiplier recovers the input, the
scaled value is at least 1, it is below 1024 except possibly for `PB`,
the chosen unit has the *smallest* multiplier among the loop units whose
scaled value is below 1024, and inputs of at least `1024^5` fall through
to `PB`. -/
lemma format_bytes_spec (b : Nat) (hb : 0 < b) :
    (format_bytes b).1 * (unitMult (format_bytes b).2 : ℚ) = (b : ℚ) ∧
    1 ≤ (format_bytes b).1 ∧
    ((format_bytes b).2 ≠ "PB" → (format_bytes b).1 < 1024) ∧
    (format_bytes b).2 ∈ fbUnits ++ ["PB"] ∧
    (∀ u ∈ fbUnits, (b : ℚ) / (unitMult u : ℚ) < 1024 →
      (unitMult (format_bytes b).2 : ℚ) ≤ (unitMult u : ℚ)) ∧
    ((1024 ^ 5 : Nat) ≤ b → (format_bytes b).2 = "PB") := by
  have hb1 : (1 : ℚ) ≤ (b : ℚ) := by exact_mod_cast hb
  have hbne : ¬ b = 0 := by omega
  simp only [format_bytes, fbUnits, fbLoop, if_neg hbne]
  split_ifs with h1 h2 h3 h4 h5
  · -- unit "B", value (b : ℚ)
    have hubN : b < 1024 := by exact_mod_cast h1
    refine ⟨by norm_num, hb1, fun _ => h1, by simp, ?_, ?_⟩
    · intro u hu _hlt
      fin_cases hu <;> norm_num
    · intro hbig
      norm_num at hbig
      omega
  · -- unit "KB", value (b : ℚ) / 1024
    have hlbN : 1024 ≤ b := by
      rw [not_lt] at h1
      exact_mod_cast h1
    have hubN : b < 1048576 := by
      have h := h2
      rw [div_lt_iff₀ (by norm_num)] at h
      norm_num at h
      exact_mod_cast h
    have hlbQ : (1024 : ℚ) ≤ (b : ℚ) := by exact_mod_cast hlbN
    refine ⟨by norm_num, ?_, fun _ => h2, by simp, ?_, ?_⟩
    · show (1 : ℚ) ≤ (b : ℚ) / 1024
      rw [le_div_iff₀ (by norm_num)]
      linarith
    · intro u hu hlt
      fin_cases hu
      · exfalso
        have h := hlt
        norm_num at h
        have hN : b < 1024 := by exact_mod_cast h
        omega
      · norm_num
      · norm_num
      · norm_num
      · norm_num
    · intro hbig
      norm_num at hbig
      omega
  · -- unit "MB", value (b : ℚ) / 1024 / 1024
    have hlbN : 1048576 ≤ b := by
      have h := h2
      rw [not_lt, le_div_iff₀ (by norm_num)] at h
      norm_num at h
      exact_mod_cast h
    have hubN : b < 1073741824 := by
      have h := h3
      rw [div_div, div_lt_iff₀ (by norm_num)] at h
      norm_num at h
      exact_mod_cast h
    have hlbQ : (1048576 : ℚ) ≤ (b : ℚ) := by exact_mod_cast hlbN
    refine ⟨by norm_num [div_div], ?_, fun _ => h3, by simp, ?_, ?_⟩
    · show (1 : ℚ) ≤ (b : ℚ) / 1024 / 1024
      rw [div_div, le_div_iff₀ (by norm_num)]
      linarith
    · intro u hu hlt
      fin_cases hu
      · exfalso
        have h := hlt
        norm_num at h
        have hN : b < 1024 := by exact_mod_cast h
        omega
      · exfalso
        have h := hlt
        norm_num at h
        rw [div_lt_iff₀ (by norm_num)] at h
        norm_num at h
        have hN : b < 1048576 := by exact_mod_cast h
        omega
      · norm_num
      · norm_num
      · norm_num
    · intro hbig
      norm_num at hbig
      omega
  · -- unit "GB", value (b : ℚ) / 1024 / 1024 / 1024
    have hlbN : 1073741824 ≤ b := by
      have h := h3
      rw [not_lt, div_div, le_div_iff₀ (by norm_num)] at h
      norm_num at h
      exact_mod_cast h
    have hubN : b < 1099511627776 := by
      have h := h4
      rw [div_div, div_div, div_lt_iff₀ (by norm_num)] at h
      norm_num at h
      exact_mod_cast h
    have hlbQ : (1073741824 : ℚ) ≤ (b : ℚ) := by exact_mod_cast hlbN
    refine ⟨by norm_num [div_div], ?_, fun _ => h4, by simp, ?_, ?_⟩
    · show (1 : ℚ) ≤ (b : ℚ) / 1024 / 1024 / 1024
      rw [div_div, div_div, le_div_iff₀ (by norm_num)]
      linarith
    · intro u hu hlt
      fin_cases hu
      · exfalso
        have h := hlt
        norm_num at h
        have hN : b < 1024 := by exact_mod_cast h
        omega
      · exfalso
        have h := hlt
        norm_num at h
        rw [div_lt_iff₀ (by norm_num)] at h
        norm_num at h
        have hN : b < 1048576 := by exact_mod_cast h
        omega
      · exfalso
        have h := hlt
        norm_num at h
        rw [div_lt_iff₀ (by norm_num)] at h
        norm_num at h
        have hN : b < 1073741824 := by exact_mod_cast h
        omega
      · norm_num
      · norm_num
    · intro hbig
      norm_num at hbig
      omega
  · -- unit "TB", value (b : ℚ) / 1024 / 1024 / 1024 / 1024
    have hlbN : 1099511627776 ≤ b := by
      have h := h4
      rw [not_lt, div_div, div_div, le_div_iff₀ (by norm_num)] at h
      norm_num at h
      exact_mod_cast h
    have hubN : b < 1125899906842624 := by
      have h := h5
      rw [div_div, div_div, div_div, div_lt_iff₀ (by norm_num)] at h
      norm_num at h
      exact_mod_cast h
    have hlbQ : (1099511627776 : ℚ) ≤ (b : ℚ) := by exact_mod_cast hlbN
    refine ⟨by norm_num [div_div], ?_, fun _ => h5, by simp, ?_, ?_⟩
    · show (1 : ℚ) ≤ (b : ℚ) / 1024 / 1024 / 1024 / 1024
      rw [div_div, div_div, div_div, le_div_iff₀ (by norm_num)]
      linarith
    · intro u hu hlt
      fin_cases hu
      · exfalso
        have h := hlt
        norm_num at h
        have hN : b < 1024 := by exact_mod_cast h
        omega
      · exfalso
        have h := hlt
        norm_num at h
        rw [div_lt_iff₀ (by norm_num)] at h
        norm_num at h
        have hN : b < 1048576 := by exact_mod_cast h
        omega
      · exfalso
        have h := hlt
        norm_num at h
        rw [div_lt_iff₀ (by norm_num)] at h
        norm_num at h
        have hN : b < 1073741824 := by exact_mod_cast h
        omega
      · exfalso
        have h := hlt
        norm_num at h
        rw [div_lt_iff₀ (by norm_num)] at h
        norm_num at h
        have hN : b < 1099511627776 := by exact_mod_cast h
        omega
      · norm_num
    · intro hbig
      norm_num at hbig
      omega
  · -- unit "PB", value (b : ℚ) / 1024 / 1024 / 1024 / 1024 / 1024
    have hlbN : 1125899906842624 ≤ b := by
      have h := h5
      rw [not_lt, div_div, div_div, div_div, le_div_iff₀ (by norm_num)] at h
      norm_num at h
      exact_mod_cast h
    have hlbQ : (1125899906842624 : ℚ) ≤ (b : ℚ) := by exact_mod_cast hlbN
    refine ⟨by norm_num [div_div], ?_, fun hne => absurd rfl hne, by simp, ?_, fun _ => rfl⟩
    · show (1 : ℚ) ≤ (b : ℚ) / 1024 / 1024 / 1024 / 1024 / 1024
      rw [div_div, div_div, div_div, div_div, le_div_iff₀ (by norm_num)]
      linarith
    · intro u hu hlt
      fin_cases hu
      · exfalso
        have h := hlt
        norm_num at h
        have hN : b < 1024 := by exact_mod_cast h
        omega
      · exfalso
        have h := hlt
        norm_num at h
        rw [div_lt_iff₀ (by norm_num)] at h
        norm_num at h
        have hN : b < 1048576 := by exact_mod_cast h
        omega
      · exfalso
        have h := hlt
        norm_num at h
        rw [div_lt_iff₀ (by norm_num)] at h
        norm_num at h
        have hN : b < 1073741824 := by exact_mod_cast h
        omega
      · exfalso
        have h := hlt
        norm_num at h
        rw [div_lt_iff₀ (by norm_num)] at h
        norm_num at h
        have hN : b < 1099511627776 := by exact_mod_cast h
        omega
      · exfalso
        have h := hlt
        norm_num at h
        rw [div_lt_iff₀ (by norm_num)] at h
        norm_num at h
        have hN : b < 1125899906842624 := by exact_mod_cast h
        omega

/-- C9 (amended): formatting is monotonic in represented magnitude
(the scaled value times the unit multiplier is exactly the input), and
for `0 < b` the code renders `b` with the *smallest* unit among
B, KB, MB, GB, TB whose scaled value is `< 1024` (equivalently, the
scaled value is normalised into `[1, 1024)` for every unit but `PB`),
falling through to `PB`, with no upper bound on the scaled value, exactly
when `b ≥ 1024^5`; `b = 0` renders as `0 B`. -/
theorem claim_c9_amended :
    (∀ b : Nat, (format_bytes b).1 * (unitMult (format_bytes b).2 : ℚ) = (b : ℚ)) ∧
    (∀ b1 b2 : Nat, b1 ≤ b2 →
      (format_bytes b1).1 * (unitMult (format_bytes b1).2 : ℚ) ≤
        (format_bytes b2).1 * (unitMult (format_bytes b2).2 : ℚ)) ∧
    (∀ b : Nat, 0 < b →
      ((format_bytes b).2 ∈ fbUnits ++ ["PB"] ∧
       1 ≤ (format_bytes b).1 ∧
       ((format_bytes b).2 ≠ "PB" → (format_bytes b).1 < 1024) ∧
       (∀ u ∈ fbUnits, (b : ℚ) / (unitMult u : ℚ) < 1024 →
         unitMult (format_bytes b).2 ≤ unitMult u))) ∧
    (∀ b : Nat, 1024 ^ 5 ≤ b → (format_bytes b).2 = "PB") ∧
    format_bytes 0 = (0, "B") := by
  have hmag : ∀ b : Nat, (format_bytes b).1 * (unitMult (format_bytes b).2 : ℚ) = (b : ℚ) := by
    intro b
    rcases Nat.eq_zero_or_pos b with rfl | hb
    · norm_num [format_bytes, unitMult]
    · exact (format_bytes_spec b hb).1
  refine ⟨hmag, ?_, ?_, ?_, rfl⟩
  · intro b1 b2 h12
    rw [hmag b1, hmag b2]
    exact_mod_cast h12
  · intro b hb
    obtain ⟨-, hge, hlt, hmem, hmin, -⟩ := format_bytes_spec b hb
    exact ⟨hmem, hge, hlt, fun u hu hult => by exact_mod_cast hmin u hu hult⟩
  · intro b hbig
    exact (format_bytes_spec b (lt_of_lt_of_le (by norm_num) hbig)).2.2.2.2.2 hbig

/-- C9 (witness): the amended characterisation instantiated at 5, 2048
and `1024^5`. -/
theorem claim_c9_witness :
    ((5 : Nat) ≤ 2048) ∧
    ((format_bytes 5).1 * (unitMult (format_bytes 5).2 : ℚ) ≤
      (format_bytes 2048).1 * (unitMult (format_bytes 2048).2 : ℚ)) ∧
    (0 < (2048 : Nat)) ∧
    ((format_bytes 2048).2 ∈ fbUnits ++ ["PB"] ∧
     1 ≤ (format_bytes 2048).1 ∧
     ((format_bytes 2048).2 ≠ "PB" → (format_bytes 2048).1 < 1024) ∧
     (∀ u ∈ fbUnits, ((2048 : Nat) : ℚ) / (unitMult u : ℚ) < 1024 →
       unitMult (format_bytes 2048).2 ≤ unitMult u)) ∧
    ((1024 ^ 5 : Nat) ≤ 1125899906842624 ∧ (format_bytes 1125899906842624).2 = "PB") :=
  ⟨by norm_num, claim_c9_amended.2.1 5 2048 (by norm_num), by norm_num,
   claim_c9_amended.2.2.1 2048 (by norm_num),
   ⟨by norm_num, claim_c9_amended.2.2.2.1 1125899906842624 (by norm_num)⟩⟩

/-- C9 (counterexample): at `b = 2048` the largest of the five loop units
whose scaled value is below 1024 is `TB` (indeed every unit from KB up
qualifies), yet the code renders 2048 with `KB` — the code picks the
*smallest* qualifying unit, not the largest. -/
theorem claim_c9_counterexample :
    (format_bytes 2048).2 = "KB" ∧
    ((2048 : ℚ) / (unitMult "TB" : ℚ) < 1024) ∧
    (∀ u ∈ fbUnits, (2048 : ℚ) / (unitMult u : ℚ) < 1024 → unitMult u ≤ unitMult "TB") ∧
    "KB" ≠ "TB" := by
  refine ⟨?_, ?_, ?_, by decide⟩
  · norm_num [format_bytes, fbUnits, fbLoop]
  · norm_num
  · intro u hu _hlt
    fin_cases hu <;> norm_num

end MCBackup
